import Mathlib

/-!
Verification of the backtest engine of `backend.py` (TradeForge).

The numeric domain of the source (Python floats) is modelled by exact
rationals `ℚ`; bar timestamps (pandas index values, `row.name`) are
modelled by integers `ℤ`.  Indicator computation (the external `ta`
library: `add_sma`, `add_rsi`, `add_macd`) is out of scope per the spec,
so the engine's input is the already-enriched bar sequence in which a
warm-up indicator value that would be NaN is represented by `none`;
the in-repo `dropna` trimming is modelled explicitly.
-/

/- Restore unfolding of the rational-arithmetic primitives so that concrete
runs of the engine evaluate by `decide`. -/
set_option allowUnsafeReducibility true in
attribute [semireducible] Rat.mul Rat.add Rat.sub Rat.div Rat.inv Rat.neg

/-- Python's `int()` applied to a rational: truncation toward zero
(`backend.py` line 214: `quantity = int((self.capital * position_size) / close)`),
written on the numerator and denominator so it evaluates by kernel reduction. -/
def pyInt (q : ℚ) : ℤ := q.num.sign * ((q.num.natAbs / q.den : ℕ) : ℤ)

/-- A completed trade as appended to `self.trades`
(`backend.py` lines 227-235); dates are modelled as integer timestamps. -/
structure Trade where
  entry_date : ℤ
  exit_date : ℤ
  entry_price : ℚ
  exit_price : ℚ
  quantity : ℤ
  pnl : ℚ
  pnl_percent : ℚ
deriving DecidableEq

/-- The open-position record (`backend.py` lines 216-220). -/
structure Position where
  entry_price : ℚ
  quantity : ℤ
  entry_date : ℤ
deriving DecidableEq

/-- The mutable state carried through one strategy loop: `self.capital`,
the local `position` variable, and `self.trades`. -/
structure LoopState where
  capital : ℚ
  position : Option Position
  trades : List Trade
deriving DecidableEq

/-- Total pnl of a trade ledger (`sum(trade['pnl'] for trade in self.trades)`,
`backend.py` line 392). -/
def sumPnl (trades : List Trade) : ℚ := (trades.map Trade.pnl).sum

/-- One iteration of the shared strategy-loop body (`backend.py` lines
203-237, identically repeated at 269-298 and 327-356), parameterised by the
bar type `β`, its close-price and timestamp projections, and the two
signal tests.  The `if not position and buy ... elif position and sell ...`
structure of the source is the match on `s.position`. -/
def step {β : Type} (closeOf : β → ℚ) (tsOf : β → ℤ) (buy sell : β → β → Bool)
    (frac : ℚ) (prev curr : β) (s : LoopState) : LoopState :=
  match s.position with
  | none =>
      if buy prev curr then
        let quantity := pyInt (s.capital * frac / closeOf curr)
        if 0 < quantity then
          { s with position := some { entry_price := closeOf curr,
                                      quantity := quantity,
                                      entry_date := tsOf curr } }
        else s
      else s
  | some pos =>
      if sell prev curr then
        let pnl := (closeOf curr - pos.entry_price) * (pos.quantity : ℚ)
        { capital := s.capital + pnl,
          position := none,
          trades := s.trades ++ [{ entry_date := pos.entry_date,
                                   exit_date := tsOf curr,
                                   entry_price := pos.entry_price,
                                   exit_price := closeOf curr,
                                   quantity := pos.quantity,
                                   pnl := pnl,
                                   pnl_percent := pnl / (pos.entry_price * (pos.quantity : ℚ)) * 100 }] }
      else s

/-- The bar loop `for i in range(1, len(data))`: each iteration sees the
previous and current row. -/
def runLoop {β : Type} (closeOf : β → ℚ) (tsOf : β → ℤ) (buy sell : β → β → Bool)
    (frac : ℚ) : β → List β → LoopState → LoopState
  | _, [], s => s
  | prev, curr :: rest, s =>
      runLoop closeOf tsOf buy sell frac curr rest
        (step closeOf tsOf buy sell frac prev curr s)

/-- The forced close of a position still open after the loop
(`if position:` blocks, `backend.py` lines 240-253), exiting at the last
row (`data.iloc[-1]`). -/
def closeOpen {β : Type} (closeOf : β → ℚ) (tsOf : β → ℤ)
    (bars : List β) (s : LoopState) : LoopState :=
  match s.position with
  | none => s
  | some pos =>
      match bars.getLast? with
      | none => s
      | some last =>
          let pnl := (closeOf last - pos.entry_price) * (pos.quantity : ℚ)
          { capital := s.capital + pnl,
            position := none,
            trades := s.trades ++ [{ entry_date := pos.entry_date,
                                     exit_date := tsOf last,
                                     entry_price := pos.entry_price,
                                     exit_price := closeOf last,
                                     quantity := pos.quantity,
                                     pnl := pnl,
                                     pnl_percent := pnl / (pos.entry_price * (pos.quantity : ℚ)) * 100 }] }

/-- The full per-strategy pass: bar loop starting at the second bar,
then the forced close against the final bar. -/
def runStrategyLoop {β : Type} (closeOf : β → ℚ) (tsOf : β → ℤ)
    (buy sell : β → β → Bool) (frac : ℚ) (s : LoopState) (bars : List β) : LoopState :=
  closeOpen closeOf tsOf bars
    (match bars with
     | [] => s
     | b0 :: rest => runLoop closeOf tsOf buy sell frac b0 rest s)

/-- A bar of the SMA-crossover strategy after `dropna`: `Close`,
`SMA_{shortPeriod}` and `SMA_{longPeriod}` are all defined. -/
structure SmaBar where
  ts : ℤ
  close : ℚ
  sma_short : ℚ
  sma_long : ℚ
deriving DecidableEq

/-- An SMA-enriched bar as produced by the external indicator step:
leading warm-up rows carry `none` (NaN) in the SMA columns. -/
structure RawSmaBar where
  ts : ℤ
  close : ℚ
  sma_short? : Option ℚ
  sma_long? : Option ℚ
deriving DecidableEq

/-- `data.dropna()` for the SMA strategy (`backend.py` line 200). -/
def dropnaSma (l : List RawSmaBar) : List SmaBar :=
  l.filterMap fun b =>
    match b.sma_short?, b.sma_long? with
    | some s, some g => some ⟨b.ts, b.close, s, g⟩
    | _, _ => none

/-- A bar of the RSI strategy after `dropna`: `RSI` is defined. -/
structure RsiBar where
  ts : ℤ
  close : ℚ
  rsi : ℚ
deriving DecidableEq

/-- An RSI-enriched bar; warm-up rows carry `none` in the RSI column. -/
structure RawRsiBar where
  ts : ℤ
  close : ℚ
  rsi? : Option ℚ
deriving DecidableEq

/-- `data.dropna()` for the RSI strategy (`backend.py` line 265). -/
def dropnaRsi (l : List RawRsiBar) : List RsiBar :=
  l.filterMap fun b =>
    match b.rsi? with
    | some r => some ⟨b.ts, b.close, r⟩
    | none => none

/-- A bar of the MACD strategy after `dropna`: `MACD`, `MACD_signal` and
`MACD_diff` are all defined. -/
structure MacdBar where
  ts : ℤ
  close : ℚ
  macd : ℚ
  macd_signal : ℚ
  macd_diff : ℚ
deriving DecidableEq

/-- A MACD-enriched bar; warm-up rows carry `none` in the MACD columns. -/
structure RawMacdBar where
  ts : ℤ
  close : ℚ
  macd? : Option ℚ
  macd_signal? : Option ℚ
  macd_diff? : Option ℚ
deriving DecidableEq

/-- `data.dropna()` for the MACD strategy (`backend.py` line 323). -/
def dropnaMacd (l : List RawMacdBar) : List MacdBar :=
  l.filterMap fun b =>
    match b.macd?, b.macd_signal?, b.macd_diff? with
    | some m, some sg, some d => some ⟨b.ts, b.close, m, sg, d⟩
    | _, _, _ => none

/-- SMA buy signal (`backend.py` line 213):
`short_sma > long_sma and prev_short_sma <= prev_long_sma`. -/
def smaBuySignal (prev curr : SmaBar) : Bool :=
  decide (curr.sma_short > curr.sma_long) && decide (prev.sma_short ≤ prev.sma_long)

/-- SMA sell signal (`backend.py` line 223):
`short_sma < long_sma and prev_short_sma >= prev_long_sma`. -/
def smaSellSignal (prev curr : SmaBar) : Bool :=
  decide (curr.sma_short < curr.sma_long) && decide (prev.sma_short ≥ prev.sma_long)

/-- RSI buy signal (`backend.py` line 274): RSI crosses above `oversold`. -/
def rsiBuySignal (oversold : ℚ) (prev curr : RsiBar) : Bool :=
  decide (curr.rsi > oversold) && decide (prev.rsi ≤ oversold)

/-- RSI sell signal (`backend.py` line 284): RSI crosses below `overbought`. -/
def rsiSellSignal (overbought : ℚ) (prev curr : RsiBar) : Bool :=
  decide (curr.rsi < overbought) && decide (prev.rsi ≥ overbought)

/-- MACD buy signal (`backend.py` line 332): MACD crosses above its signal line. -/
def macdBuySignal (prev curr : MacdBar) : Bool :=
  decide (curr.macd > curr.macd_signal) && decide (prev.macd ≤ prev.macd_signal)

/-- MACD sell signal (`backend.py` line 342): MACD crosses below its signal line. -/
def macdSellSignal (prev curr : MacdBar) : Bool :=
  decide (curr.macd < curr.macd_signal) && decide (prev.macd ≥ prev.macd_signal)

/-- The result dictionary of `_calculate_metrics` (`backend.py` lines 376-416). -/
structure BacktestResult where
  finalCapital : ℚ
  totalPnL : ℚ
  totalTrades : ℕ
  winningTrades : ℕ
  losingTrades : ℕ
  winRate : ℚ
  avgWin : ℚ
  avgLoss : ℚ
  profitFactor : ℚ
  trades : List Trade
deriving DecidableEq

/-- The all-zero result returned for an empty ledger
(`backend.py` lines 378-390). -/
def zeroTradeResult (initial_capital : ℚ) : BacktestResult :=
  { finalCapital := initial_capital, totalPnL := 0, totalTrades := 0,
    winningTrades := 0, losingTrades := 0, winRate := 0, avgWin := 0,
    avgLoss := 0, profitFactor := 0, trades := [] }

/-- `BacktestEngine._calculate_metrics` (`backend.py` lines 376-416). -/
def calculate_metrics (initial_capital capital : ℚ) (trades : List Trade) : BacktestResult :=
  if trades.isEmpty then zeroTradeResult initial_capital
  else
    let total_pnl := sumPnl trades
    let winning_trades := trades.filter fun t => decide (t.pnl > 0)
    let losing_trades := trades.filter fun t => decide (t.pnl < 0)
    let win_count := winning_trades.length
    let loss_count := losing_trades.length
    let win_rate := if ¬trades.isEmpty then ((win_count : ℚ) / (trades.length : ℚ)) * 100 else 0
    let avg_win := if 0 < win_count then sumPnl winning_trades / (win_count : ℚ) else 0
    let avg_loss := if 0 < loss_count then sumPnl losing_trades / (loss_count : ℚ) else 0
    let profit_factor := if avg_loss ≠ 0 then |avg_win / avg_loss| else 0
    { finalCapital := capital, totalPnL := total_pnl, totalTrades := trades.length,
      winningTrades := win_count, losingTrades := loss_count, winRate := win_rate,
      avgWin := avg_win, avgLoss := avg_loss, profitFactor := profit_factor,
      trades := trades }

/-- The strategy-configuration dictionary; `none` models an absent key, and
`.getD` models `dict.get(key, default)`.  The period fields only select
which (externally computed) indicator columns are attached to the bars. -/
structure Strategy where
  name? : Option String
  type? : Option String
  symbol? : Option String
  positionSize? : Option ℚ
  initialCapital? : Option ℚ
  shortPeriod? : Option ℕ
  longPeriod? : Option ℕ
  rsiPeriod? : Option ℕ
  oversold? : Option ℚ
  overbought? : Option ℚ
deriving DecidableEq

/-- The engine's instance fields (`backend.py` lines 167-171).  The source
also initialises a `self.positions` list that no code path ever reads or
appends to after `__init__`/`run_backtest` reset it; it is omitted. -/
structure BacktestEngine where
  initial_capital : ℚ
  capital : ℚ
  trades : List Trade
deriving DecidableEq

/-- `BacktestEngine.__init__` (`backend.py` lines 167-171). -/
def BacktestEngine.new (initial_capital : ℚ) : BacktestEngine :=
  { initial_capital := initial_capital, capital := initial_capital, trades := [] }

/-- The one input frame, carrying the indicator columns each strategy's
(external) enrichment step would attach to it. -/
structure MarketData where
  smaBars : List RawSmaBar
  rsiBars : List RawRsiBar
  macdBars : List RawMacdBar
deriving DecidableEq

/-- What `run_backtest` returns: either the metrics dictionary or the
data-level `{'error': ...}` dictionary. -/
inductive RunResult where
  | ok (result : BacktestResult)
  | error (msg : String)
deriving DecidableEq

/-- `BacktestEngine._backtest_sma_crossover` (`backend.py` lines 190-255):
reads `positionSize` (default 10, a percentage), trims warm-up rows, runs
the loop from the engine's current capital and ledger, and returns the
updated engine together with the metrics. -/
def backtest_sma_crossover (e : BacktestEngine) (strategy : Strategy)
    (data : List RawSmaBar) : BacktestEngine × BacktestResult :=
  let position_size := (strategy.positionSize?.getD 10) / 100
  let bars := dropnaSma data
  let s := runStrategyLoop SmaBar.close SmaBar.ts smaBuySignal smaSellSignal
    position_size { capital := e.capital, position := none, trades := e.trades } bars
  ({ e with capital := s.capital, trades := s.trades },
   calculate_metrics e.initial_capital s.capital s.trades)

/-- `BacktestEngine._backtest_rsi` (`backend.py` lines 257-316): reads
`oversold` (default 30) and `overbought` (default 70). -/
def backtest_rsi (e : BacktestEngine) (strategy : Strategy)
    (data : List RawRsiBar) : BacktestEngine × BacktestResult :=
  let oversold := strategy.oversold?.getD 30
  let overbought := strategy.overbought?.getD 70
  let position_size := (strategy.positionSize?.getD 10) / 100
  let bars := dropnaRsi data
  let s := runStrategyLoop RsiBar.close RsiBar.ts (rsiBuySignal oversold)
    (rsiSellSignal overbought) position_size
    { capital := e.capital, position := none, trades := e.trades } bars
  ({ e with capital := s.capital, trades := s.trades },
   calculate_metrics e.initial_capital s.capital s.trades)

/-- `BacktestEngine._backtest_macd` (`backend.py` lines 318-374). -/
def backtest_macd (e : BacktestEngine) (strategy : Strategy)
    (data : List RawMacdBar) : BacktestEngine × BacktestResult :=
  let position_size := (strategy.positionSize?.getD 10) / 100
  let bars := dropnaMacd data
  let s := runStrategyLoop MacdBar.close MacdBar.ts macdBuySignal macdSellSignal
    position_size { capital := e.capital, position := none, trades := e.trades } bars
  ({ e with capital := s.capital, trades := s.trades },
   calculate_metrics e.initial_capital s.capital s.trades)

/-- `BacktestEngine.run_backtest` (`backend.py` lines 173-188): resets
capital and ledger, then dispatches on `strategy.get('type', 'sma_crossover')`;
an unrecognised type yields `{'error': 'Unknown strategy type'}`. -/
def run_backtest (e : BacktestEngine) (strategy : Strategy)
    (data : MarketData) : BacktestEngine × RunResult :=
  let e := { e with capital := e.initial_capital, trades := [] }
  let strategy_type := strategy.type?.getD "sma_crossover"
  if strategy_type = "sma_crossover" then
    let p := backtest_sma_crossover e strategy data.smaBars
    (p.1, RunResult.ok p.2)
  else if strategy_type = "rsi" then
    let p := backtest_rsi e strategy data.rsiBars
    (p.1, RunResult.ok p.2)
  else if strategy_type = "macd" then
    let p := backtest_macd e strategy data.macdBars
    (p.1, RunResult.ok p.2)
  else (e, RunResult.error "Unknown strategy type")

/-- What the `/api/backtest` route returns to the transport layer. -/
inductive RouteResponse where
  | httpError (status : ℕ) (msg : String)
  | payload (r : RunResult)
deriving DecidableEq

/-- Emptiness of the fetched frame (`historical_data.empty`); the three
per-strategy views share the frame's rows, so all are empty together. -/
def MarketData.isEmpty (d : MarketData) : Bool :=
  d.smaBars.isEmpty && d.rsiBars.isEmpty && d.macdBars.isEmpty

/-- The `/api/backtest` route (`backend.py` lines 466-483): the external
data fetch has already produced `historical`; an empty frame is rejected
with HTTP 400, otherwise a fresh engine is built from
`strategy.get('initialCapital', 1000000)` and run. -/
def backtest_route (strategy : Strategy) (historical : MarketData) : RouteResponse :=
  if historical.isEmpty then
    RouteResponse.httpError 400 "No historical data available"
  else
    let engine := BacktestEngine.new (strategy.initialCapital?.getD 1000000)
    RouteResponse.payload (run_backtest engine strategy historical).2

/-- Outcome of the `/api/strategy/validate` route. -/
inductive ValidateResult where
  | missing (field : String)
  | valid
deriving DecidableEq

/-- The `/api/strategy/validate` route (`backend.py` lines 486-497):
rejects, with HTTP 400 naming the field, the first of
`name, type, symbol, positionSize, initialCapital` that is absent. -/
def validate_strategy (s : Strategy) : ValidateResult :=
  if s.name?.isNone then ValidateResult.missing "name"
  else if s.type?.isNone then ValidateResult.missing "type"
  else if s.symbol?.isNone then ValidateResult.missing "symbol"
  else if s.positionSize?.isNone then ValidateResult.missing "positionSize"
  else if s.initialCapital?.isNone then ValidateResult.missing "initialCapital"
  else ValidateResult.valid

example : pyInt (1000000 * ((10 : ℚ) / 100) / 102) = 980 := by decide

example :
    dropnaSma [⟨0, 100, none, none⟩, ⟨1, 101, some 9, some 10⟩] =
      [⟨1, 101, 9, 10⟩] := by decide

/-- On a nonnegative rational, Python truncation agrees with the floor. -/
theorem pyInt_eq_floor {q : ℚ} (h : 0 ≤ q) : pyInt q = ⌊q⌋ := by
  rw [Rat.floor_def]
  have hnum : 0 ≤ q.num := Rat.num_nonneg.mpr h
  rcases lt_or_eq_of_le hnum with hpos | hzero
  · unfold pyInt
    rw [Int.sign_eq_one_of_pos hpos, one_mul, Int.ofNat_ediv,
      Int.natAbs_of_nonneg hnum]
  · unfold pyInt
    rw [← hzero]
    simp

theorem sumPnl_append (l1 l2 : List Trade) :
    sumPnl (l1 ++ l2) = sumPnl l1 + sumPnl l2 := by
  simp [sumPnl]

/-- Appending one element to a chain whose every member relates to it. -/
theorem chain'_append_singleton {α : Type} {R : α → α → Prop} (l : List α) (a : α)
    (h : List.Chain' R l) (h2 : ∀ x ∈ l, R x a) : List.Chain' R (l ++ [a]) := by
  rw [List.chain'_append]
  refine ⟨h, List.chain'_singleton a, ?_⟩
  intro x hx y hy
  have hxl : x ∈ l := List.mem_of_mem_getLast? hx
  have ha : a = y := by simpa using hy
  subst ha
  exact h2 x hxl

/-- Capital accounting invariant: the running capital is the initial
capital plus the pnl of every trade recorded so far. -/
def InvCap (init : ℚ) (s : LoopState) : Prop :=
  s.capital = init + sumPnl s.trades

theorem step_invCap {β : Type} (closeOf : β → ℚ) (tsOf : β → ℤ)
    (buy sell : β → β → Bool) (frac : ℚ) (prev curr : β) (s : LoopState)
    {init : ℚ} (h : InvCap init s) :
    InvCap init (step closeOf tsOf buy sell frac prev curr s) := by
  rcases s with ⟨cap, pos, tr⟩
  unfold InvCap at h ⊢
  cases pos with
  | none =>
    simp only [step]
    split
    · split
      · simpa using h
      · simpa using h
    · simpa using h
  | some p =>
    simp only [step]
    split
    · simp only [sumPnl_append] at *
      simp [sumPnl] at *
      linarith
    · simpa using h

theorem runLoop_invCap {β : Type} (closeOf : β → ℚ) (tsOf : β → ℤ)
    (buy sell : β → β → Bool) (frac : ℚ) {init : ℚ} :
    ∀ (rest : List β) (prev : β) (s : LoopState), InvCap init s →
      InvCap init (runLoop closeOf tsOf buy sell frac prev rest s) := by
  intro rest
  induction rest with
  | nil => intro prev s h; simpa [runLoop] using h
  | cons curr rest ih =>
      intro prev s h
      simp only [runLoop]
      exact ih curr _ (step_invCap closeOf tsOf buy sell frac prev curr s h)

theorem closeOpen_invCap {β : Type} (closeOf : β → ℚ) (tsOf : β → ℤ)
    (bars : List β) (s : LoopState) {init : ℚ} (h : InvCap init s) :
    InvCap init (closeOpen closeOf tsOf bars s) := by
  rcases s with ⟨cap, pos, tr⟩
  unfold InvCap at h ⊢
  cases pos with
  | none => simpa using h
  | some p =>
    simp only [closeOpen]
    split
    · simpa using h
    · simp only [sumPnl_append] at *
      simp [sumPnl] at *
      linarith

/-- The full strategy pass started from a clean state conserves capital. -/
theorem runStrategyLoop_invCap {β : Type} (closeOf : β → ℚ) (tsOf : β → ℤ)
    (buy sell : β → β → Bool) (frac : ℚ) (init : ℚ) (bars : List β) :
    InvCap init (runStrategyLoop closeOf tsOf buy sell frac
      { capital := init, position := none, trades := [] } bars) := by
  have h0 : InvCap init { capital := init, position := none, trades := [] } := by
    simp [InvCap, sumPnl]
  unfold runStrategyLoop
  cases bars with
  | nil => exact closeOpen_invCap _ _ _ _ h0
  | cons b0 rest =>
      exact closeOpen_invCap _ _ _ _ (runLoop_invCap _ _ _ _ _ rest b0 _ h0)

/-- Temporal invariant of the loop relative to the timestamp `b` of the
last bar processed so far: the ledger is chained (each exit strictly
before the next entry), every recorded trade is strictly increasing in
time, every exit is at or before `b`, and an open position was entered at
or before `b` and strictly after every recorded exit. -/
def InvOrd (b : ℤ) (s : LoopState) : Prop :=
  List.Chain' (fun t u => t.exit_date < u.entry_date) s.trades ∧
  (∀ t ∈ s.trades, t.entry_date < t.exit_date) ∧
  (∀ t ∈ s.trades, t.exit_date ≤ b) ∧
  (∀ pos, s.position = some pos →
    pos.entry_date ≤ b ∧ ∀ t ∈ s.trades, t.exit_date < pos.entry_date)

theorem step_invOrd {β : Type} (closeOf : β → ℚ) (tsOf : β → ℤ)
    (buy sell : β → β → Bool) (frac : ℚ) (prev curr : β) (s : LoopState)
    (hlt : tsOf prev < tsOf curr) (hinv : InvOrd (tsOf prev) s) :
    InvOrd (tsOf curr) (step closeOf tsOf buy sell frac prev curr s) := by
  obtain ⟨hchain, hstrict, hub, hpos⟩ := hinv
  rcases s with ⟨cap, pos, tr⟩
  simp only at hchain hstrict hub hpos
  cases pos with
  | none =>
    simp only [step]
    split
    · split
      · refine ⟨hchain, hstrict, fun t ht => (hub t ht).trans hlt.le, ?_⟩
        intro q hq
        simp only [Option.some.injEq] at hq
        subst hq
        exact ⟨le_refl _, fun t ht => lt_of_le_of_lt (hub t ht) hlt⟩
      · exact ⟨hchain, hstrict, fun t ht => (hub t ht).trans hlt.le,
          fun q hq => absurd hq (by simp)⟩
    · exact ⟨hchain, hstrict, fun t ht => (hub t ht).trans hlt.le,
        fun q hq => absurd hq (by simp)⟩
  | some p =>
    obtain ⟨hple, hexlt⟩ := hpos p rfl
    simp only [step]
    split
    · refine ⟨?_, ?_, ?_, ?_⟩
      · exact chain'_append_singleton tr _ hchain fun t ht => hexlt t ht
      · intro t ht
        rcases List.mem_append.mp ht with h1 | h1
        · exact hstrict t h1
        · rw [List.mem_singleton] at h1
          subst h1
          show p.entry_date < tsOf curr
          exact lt_of_le_of_lt hple hlt
      · intro t ht
        rcases List.mem_append.mp ht with h1 | h1
        · exact (hub t h1).trans hlt.le
        · rw [List.mem_singleton] at h1
          subst h1
          show tsOf curr ≤ tsOf curr
          exact le_refl _
      · intro q hq
        exact absurd hq (by simp)
    · refine ⟨hchain, hstrict, fun t ht => (hub t ht).trans hlt.le, ?_⟩
      intro q hq
      simp only [Option.some.injEq] at hq
      subst hq
      exact ⟨hple.trans hlt.le, hexlt⟩

theorem runLoop_invOrd {β : Type} (closeOf : β → ℚ) (tsOf : β → ℤ)
    (buy sell : β → β → Bool) (frac : ℚ) :
    ∀ (rest : List β) (prev : β) (s : LoopState),
      List.Pairwise (fun a b => tsOf a < tsOf b) (prev :: rest) →
      InvOrd (tsOf prev) s →
      InvOrd (tsOf ((prev :: rest).getLastD prev))
        (runLoop closeOf tsOf buy sell frac prev rest s) := by
  intro rest
  induction rest with
  | nil => intro prev s _ hinv; simpa [runLoop] using hinv
  | cons curr rest ih =>
      intro prev s hord hinv
      have hmem := (List.pairwise_cons.mp hord).1 curr (by simp)
      have htail := (List.pairwise_cons.mp hord).2
      have hstep := step_invOrd closeOf tsOf buy sell frac prev curr s hmem hinv
      have := ih curr (step closeOf tsOf buy sell frac prev curr s) htail hstep
      simp only [runLoop]
      rw [List.getLastD_cons, List.getLastD_cons]
      rw [List.getLastD_cons] at this
      exact this

/-- Shape of the ledger after the forced close: still chained, entries
never after exits, and strictly before them except possibly for the final
forced-close trade. -/
def PostOrd (s : LoopState) : Prop :=
  List.Chain' (fun t u => t.exit_date < u.entry_date) s.trades ∧
  (∀ t ∈ s.trades, t.entry_date ≤ t.exit_date) ∧
  (∀ t ∈ s.trades.dropLast, t.entry_date < t.exit_date)

theorem closeOpen_post {β : Type} (closeOf : β → ℚ) (tsOf : β → ℤ)
    (bars : List β) (s : LoopState) (lb : β)
    (hlast : bars.getLast? = some lb) (hinv : InvOrd (tsOf lb) s) :
    PostOrd (closeOpen closeOf tsOf bars s) := by
  obtain ⟨hchain, hstrict, hub, hpos⟩ := hinv
  rcases s with ⟨cap, pos, tr⟩
  simp only at hchain hstrict hub hpos
  cases pos with
  | none =>
    exact ⟨hchain, fun t ht => (hstrict t ht).le,
      fun t ht => hstrict t (List.dropLast_subset tr ht)⟩
  | some p =>
    obtain ⟨hple, hexlt⟩ := hpos p rfl
    simp only [closeOpen, hlast]
    refine ⟨?_, ?_, ?_⟩
    · exact chain'_append_singleton tr _ hchain fun t ht => hexlt t ht
    · intro t ht
      rcases List.mem_append.mp ht with h1 | h1
      · exact (hstrict t h1).le
      · rw [List.mem_singleton] at h1
        subst h1
        show p.entry_date ≤ tsOf lb
        exact hple
    · rw [List.dropLast_concat]
      exact hstrict

/-- For a nonempty list, `getLast?` returns the `getLastD` value. -/
theorem getLast?_cons_eq_getLastD {α : Type} (a : α) (l : List α) :
    (a :: l).getLast? = some ((a :: l).getLastD a) := by
  rw [List.getLastD_eq_getLast?]
  cases h : (a :: l).getLast? with
  | none => exact absurd (List.getLast?_eq_none_iff.mp h) (by simp)
  | some x => rfl

/-- The full strategy pass started from a clean state, on bars with
strictly increasing timestamps, yields a well-ordered ledger. -/
theorem runStrategyLoop_post {β : Type} (closeOf : β → ℚ) (tsOf : β → ℤ)
    (buy sell : β → β → Bool) (frac : ℚ) (init : ℚ) (bars : List β)
    (hord : List.Pairwise (fun a b => tsOf a < tsOf b) bars) :
    PostOrd (runStrategyLoop closeOf tsOf buy sell frac
      { capital := init, position := none, trades := [] } bars) := by
  unfold runStrategyLoop
  cases bars with
  | nil =>
      simp only [closeOpen]
      exact ⟨List.chain'_nil, by simp, by simp⟩
  | cons b0 rest =>
      have h0 : InvOrd (tsOf b0) { capital := init, position := none, trades := [] } := by
        refine ⟨List.chain'_nil, by simp, by simp, ?_⟩
        intro p hp
        exact absurd hp (by simp)
      have hloop := runLoop_invOrd closeOf tsOf buy sell frac rest b0 _ hord h0
      exact closeOpen_post closeOf tsOf _ _ _ (getLast?_cons_eq_getLastD b0 rest) hloop

/-- The metrics result reports exactly the ledger it was given. -/
theorem calculate_metrics_trades (init cap : ℚ) (trades : List Trade) :
    (calculate_metrics init cap trades).trades = trades := by
  unfold calculate_metrics
  split
  · next h => simp [zeroTradeResult, List.isEmpty_iff.mp h]
  · rfl

/-- If the capital fed to the metrics is the initial capital plus the
ledger's total pnl, the reported result conserves capital. -/
theorem calculate_metrics_conservation (init cap : ℚ) (trades : List Trade)
    (h : cap = init + sumPnl trades) :
    (calculate_metrics init cap trades).finalCapital =
      init + (calculate_metrics init cap trades).totalPnL ∧
    (calculate_metrics init cap trades).totalPnL =
      sumPnl (calculate_metrics init cap trades).trades := by
  unfold calculate_metrics
  split
  · next he => simp [zeroTradeResult, sumPnl]
  · exact ⟨h, rfl⟩

/-- Strictly increasing timestamps survive a `filterMap` that preserves
the timestamp of every row it keeps. -/
theorem pairwise_ts_filterMap {α β : Type} (f : α → Option β)
    (tsa : α → ℤ) (tsb : β → ℤ)
    (hf : ∀ a b, f a = some b → tsb b = tsa a) (l : List α)
    (h : List.Pairwise (fun x y => tsa x < tsa y) l) :
    List.Pairwise (fun x y => tsb x < tsb y) (l.filterMap f) := by
  rw [List.pairwise_filterMap]
  refine h.imp ?_
  intro a a' hlt b hb b' hb'
  rw [hf a b hb, hf a' b' hb']
  exact hlt

theorem pairwise_dropnaSma (l : List RawSmaBar)
    (h : List.Pairwise (fun a b => a.ts < b.ts) l) :
    List.Pairwise (fun a b => a.ts < b.ts) (dropnaSma l) := by
  refine pairwise_ts_filterMap _ RawSmaBar.ts SmaBar.ts ?_ l h
  intro a b hab
  rcases a with ⟨ts, close, s?, g?⟩
  cases s? <;> cases g? <;> simp_all [dropnaSma]
  rw [← hab]

theorem pairwise_dropnaRsi (l : List RawRsiBar)
    (h : List.Pairwise (fun a b => a.ts < b.ts) l) :
    List.Pairwise (fun a b => a.ts < b.ts) (dropnaRsi l) := by
  refine pairwise_ts_filterMap _ RawRsiBar.ts RsiBar.ts ?_ l h
  intro a b hab
  rcases a with ⟨ts, close, r?⟩
  cases r? <;> simp_all [dropnaRsi]
  rw [← hab]

theorem pairwise_dropnaMacd (l : List RawMacdBar)
    (h : List.Pairwise (fun a b => a.ts < b.ts) l) :
    List.Pairwise (fun a b => a.ts < b.ts) (dropnaMacd l) := by
  refine pairwise_ts_filterMap _ RawMacdBar.ts MacdBar.ts ?_ l h
  intro a b hab
  rcases a with ⟨ts, close, m?, s?, d?⟩
  cases m? <;> cases s? <;> cases d? <;> simp_all [dropnaMacd]
  rw [← hab]

/-- Example engine with one million initial capital. -/
def engEx : BacktestEngine := BacktestEngine.new 1000000

/-- A fully populated SMA-crossover configuration. -/
def smaStrategyEx : Strategy :=
  ⟨some "demo", some "sma_crossover", some "NIFTY 50", some 10, some 1000000,
   some 10, some 50, none, none, none⟩

/-- The spec's worked scenario: five bars, short SMA [9,11,12,8,7] against
long SMA 10, closes [100,102,105,101,99]. -/
def smaBars5 : List RawSmaBar :=
  [⟨0, 100, some 9, some 10⟩, ⟨1, 102, some 11, some 10⟩,
   ⟨2, 105, some 12, some 10⟩, ⟨3, 101, some 8, some 10⟩,
   ⟨4, 99, some 7, some 10⟩]

def smaData5 : MarketData := ⟨smaBars5, [], []⟩

/-- The single trade the five-bar scenario produces: enter at bar 1
(close 102, quantity 980), exit at bar 3 (close 101). -/
def smaTrade5 : Trade := ⟨1, 3, 102, 101, 980, -980, -50/51⟩

def smaResult5 : BacktestResult :=
  ⟨999020, -980, 1, 0, 1, 0, 0, -980, 0, [smaTrade5]⟩

/-- Two bars whose SMA cross fires on the final bar, so the forced close
exits on the entry bar itself. -/
def smaBars2 : List RawSmaBar :=
  [⟨0, 100, some 9, some 10⟩, ⟨1, 100, some 11, some 10⟩]

def smaData2 : MarketData := ⟨smaBars2, [], []⟩

def smaTrade2 : Trade := ⟨1, 1, 100, 100, 1000, 0, 0⟩

def smaResult2 : BacktestResult :=
  ⟨1000000, 0, 1, 0, 0, 0, 0, 0, 0, [smaTrade2]⟩

/-- A non-empty frame whose SMA columns are NaN on every row
(series shorter than the long SMA window): empty after `dropna`. -/
def smaNanBars : List RawSmaBar := [⟨0, 100, none, none⟩, ⟨1, 101, none, none⟩]

def smaNanData : MarketData := ⟨smaNanBars, [], []⟩

/-- A configuration with no `type` key at all. -/
def strategyNoType : Strategy :=
  ⟨none, none, none, some 10, some 1000000, none, none, none, none, none⟩

/-- A configuration whose `type` is none of the three known kinds. -/
def strategyUnknown : Strategy :=
  ⟨some "demo", some "bollinger", some "SENSEX", some 10, some 1000000,
   none, none, none, none, none⟩

example : (run_backtest engEx smaStrategyEx smaData5).2 = RunResult.ok smaResult5 := by decide

example : (run_backtest engEx smaStrategyEx smaData2).2 = RunResult.ok smaResult2 := by decide

example : (run_backtest engEx smaStrategyEx smaNanData).2 =
    RunResult.ok (zeroTradeResult 1000000) := by decide

/-- C1: for every run of the backtest engine that produces a result, the
returned `finalCapital` equals the engine's `initialCapital` plus the
returned `totalPnL`, and `totalPnL` is exactly the sum of the `pnl`
fields of the trades in the returned ledger. -/
theorem capital_conservation (e : BacktestEngine) (strategy : Strategy)
    (data : MarketData) (r : BacktestResult)
    (h : (run_backtest e strategy data).2 = RunResult.ok r) :
    r.finalCapital = e.initial_capital + r.totalPnL ∧
    r.totalPnL = sumPnl r.trades := by
  simp only [run_backtest] at h
  split_ifs at h with h1 h2 h3
  · rw [RunResult.ok.injEq] at h
    subst h
    exact calculate_metrics_conservation _ _ _
      (runStrategyLoop_invCap SmaBar.close SmaBar.ts smaBuySignal smaSellSignal _ _ _)
  · rw [RunResult.ok.injEq] at h
    subst h
    exact calculate_metrics_conservation _ _ _
      (runStrategyLoop_invCap RsiBar.close RsiBar.ts _ _ _ _ _)
  · rw [RunResult.ok.injEq] at h
    subst h
    exact calculate_metrics_conservation _ _ _
      (runStrategyLoop_invCap MacdBar.close MacdBar.ts macdBuySignal macdSellSignal _ _ _)

/-- C1 witness: capital conservation instantiated on the five-bar SMA
scenario, which produces one losing trade. -/
theorem capital_conservation_witness :
    (run_backtest engEx smaStrategyEx smaData5).2 = RunResult.ok smaResult5 ∧
    (smaResult5.finalCapital = engEx.initial_capital + smaResult5.totalPnL ∧
     smaResult5.totalPnL = sumPnl smaResult5.trades) :=
  ⟨by decide, capital_conservation engEx smaStrategyEx smaData5 smaResult5 (by decide)⟩

/-- C5: a configuration whose kind is none of sma_crossover, rsi, macd
makes `run_backtest` return the data-level error value, with the engine
left in its freshly reset state: no bar is iterated, no position is
changed, no trade is recorded. -/
theorem unknown_kind_is_error (e : BacktestEngine) (strategy : Strategy)
    (data : MarketData)
    (h1 : strategy.type?.getD "sma_crossover" ≠ "sma_crossover")
    (h2 : strategy.type?.getD "sma_crossover" ≠ "rsi")
    (h3 : strategy.type?.getD "sma_crossover" ≠ "macd") :
    run_backtest e strategy data =
      ({ e with capital := e.initial_capital, trades := [] },
       RunResult.error "Unknown strategy type") := by
  simp only [run_backtest]
  rw [if_neg h1, if_neg h2, if_neg h3]

/-- C5 witness: the unknown kind `bollinger` is rejected as an error. -/
theorem unknown_kind_is_error_witness :
    strategyUnknown.type?.getD "sma_crossover" ≠ "sma_crossover" ∧
    strategyUnknown.type?.getD "sma_crossover" ≠ "rsi" ∧
    strategyUnknown.type?.getD "sma_crossover" ≠ "macd" ∧
    run_backtest engEx strategyUnknown smaData5 =
      ({ engEx with capital := engEx.initial_capital, trades := [] },
       RunResult.error "Unknown strategy type") :=
  ⟨by decide, by decide, by decide,
   unknown_kind_is_error engEx strategyUnknown smaData5
     (by decide) (by decide) (by decide)⟩

/-- C6: when an entry signal fires while flat, the quantity is the floor
of currentCapital times the position-size fraction over the entry price;
a positive quantity opens exactly that position, while quantity zero
leaves the state unchanged: still flat, same capital, no trade. -/
theorem entry_quantity_spec (β : Type) (closeOf : β → ℚ) (tsOf : β → ℤ)
    (buy sell : β → β → Bool) (frac : ℚ) (prev curr : β) (s : LoopState)
    (hpos : s.position = none) (hbuy : buy prev curr = true)
    (hcap : 0 ≤ s.capital) (hfrac : 0 ≤ frac) (hclose : 0 < closeOf curr) :
    (0 < ⌊s.capital * frac / closeOf curr⌋ →
      step closeOf tsOf buy sell frac prev curr s =
        { s with position := some { entry_price := closeOf curr,
                                    quantity := ⌊s.capital * frac / closeOf curr⌋,
                                    entry_date := tsOf curr } }) ∧
    (⌊s.capital * frac / closeOf curr⌋ = 0 →
      step closeOf tsOf buy sell frac prev curr s = s) := by
  have hx : (0:ℚ) ≤ s.capital * frac / closeOf curr :=
    div_nonneg (mul_nonneg hcap hfrac) hclose.le
  have hpy : pyInt (s.capital * frac / closeOf curr) =
      ⌊s.capital * frac / closeOf curr⌋ := pyInt_eq_floor hx
  rcases s with ⟨cap, pos, tr⟩
  simp only at hpos hpy hx
  subst hpos
  constructor
  · intro hq
    simp only [step, hbuy, if_true]
    rw [hpy, if_pos hq]
  · intro hq
    simp only [step, hbuy, if_true]
    rw [hpy, hq]
    simp

/-- C6 witness: at capital one million, fraction 10 percent and price 102
the computed quantity is 980 and the position opens with it. -/
theorem entry_quantity_spec_witness :
    smaBuySignal ⟨0, 100, 9, 10⟩ ⟨1, 102, 11, 10⟩ = true ∧
    (0:ℚ) < SmaBar.close ⟨1, 102, 11, 10⟩ ∧
    step SmaBar.close SmaBar.ts smaBuySignal smaSellSignal (1/10)
        ⟨0, 100, 9, 10⟩ ⟨1, 102, 11, 10⟩ ⟨1000000, none, []⟩ =
      ⟨1000000, some ⟨102, 980, 1⟩, []⟩ := by
  have hfloor : ⌊(1000000 : ℚ) * (1/10) / 102⌋ = 980 := by
    rw [← pyInt_eq_floor (by decide)]
    decide
  refine ⟨by decide, by decide, ?_⟩
  have h := (entry_quantity_spec SmaBar SmaBar.close SmaBar.ts smaBuySignal
      smaSellSignal (1/10) ⟨0, 100, 9, 10⟩ ⟨1, 102, 11, 10⟩ ⟨1000000, none, []⟩
      rfl (by decide) (by decide) (by decide) (by decide)).1 (by
    show 0 < ⌊(1000000 : ℚ) * (1/10) / 102⌋
    rw [hfloor]
    decide)
  dsimp only at h
  rw [hfloor] at h
  exact h

/-- C7: the reported profitFactor is the absolute value of avgWin over
avgLoss when avgLoss is nonzero, and 0 when avgLoss is zero (in
particular with no losing trades or no trades at all); in the exact
rational model it is always a defined finite value. -/
theorem profit_factor_spec (init cap : ℚ) (trades : List Trade) :
    (calculate_metrics init cap trades).profitFactor =
      (if (calculate_metrics init cap trades).avgLoss = 0 then 0
       else |(calculate_metrics init cap trades).avgWin /
             (calculate_metrics init cap trades).avgLoss|) := by
  have key : ∀ a b : ℚ, (if a ≠ 0 then |b / a| else 0) =
      (if a = 0 then 0 else |b / a|) := by
    intro a b
    by_cases h : a = 0 <;> simp [h]
  unfold calculate_metrics
  split
  · simp [zeroTradeResult]
  · exact key _ _

/-- C4: in every run over series with strictly increasing timestamps,
each trade's exit strictly precedes the next trade's entry: trades never
overlap, reflecting the at-most-one-open-position loop. -/
theorem trades_ordered (e : BacktestEngine) (strategy : Strategy)
    (data : MarketData) (r : BacktestResult)
    (hsma : List.Pairwise (fun a b => a.ts < b.ts) data.smaBars)
    (hrsi : List.Pairwise (fun a b => a.ts < b.ts) data.rsiBars)
    (hmacd : List.Pairwise (fun a b => a.ts < b.ts) data.macdBars)
    (h : (run_backtest e strategy data).2 = RunResult.ok r) :
    List.Chain' (fun t u => t.exit_date < u.entry_date) r.trades := by
  simp only [run_backtest] at h
  split_ifs at h with h1 h2 h3
  · rw [RunResult.ok.injEq] at h
    subst h
    simp only [backtest_sma_crossover]
    rw [calculate_metrics_trades]
    exact (runStrategyLoop_post SmaBar.close SmaBar.ts smaBuySignal smaSellSignal
      _ _ _ (pairwise_dropnaSma _ hsma)).1
  · rw [RunResult.ok.injEq] at h
    subst h
    simp only [backtest_rsi]
    rw [calculate_metrics_trades]
    exact (runStrategyLoop_post RsiBar.close RsiBar.ts _ _ _ _ _
      (pairwise_dropnaRsi _ hrsi)).1
  · rw [RunResult.ok.injEq] at h
    subst h
    simp only [backtest_macd]
    rw [calculate_metrics_trades]
    exact (runStrategyLoop_post MacdBar.close MacdBar.ts macdBuySignal macdSellSignal
      _ _ _ (pairwise_dropnaMacd _ hmacd)).1

/-- C4 witness: the five-bar SMA scenario yields a singleton, hence
trivially chained, ledger. -/
theorem trades_ordered_witness :
    List.Pairwise (fun a b => a.ts < b.ts) smaData5.smaBars ∧
    List.Pairwise (fun a b => a.ts < b.ts) smaData5.rsiBars ∧
    List.Pairwise (fun a b => a.ts < b.ts) smaData5.macdBars ∧
    (run_backtest engEx smaStrategyEx smaData5).2 = RunResult.ok smaResult5 ∧
    List.Chain' (fun t u => t.exit_date < u.entry_date) smaResult5.trades :=
  ⟨by decide, by decide, by decide, by decide,
   trades_ordered engEx smaStrategyEx smaData5 smaResult5
     (by decide) (by decide) (by decide) (by decide)⟩

/-- Detects a ledger trade whose exit timestamp is not strictly after its
entry timestamp. -/
def hasNonStrictTrade : RunResult → Bool
  | RunResult.ok r => r.trades.any fun t => decide (t.exit_date ≤ t.entry_date)
  | RunResult.error _ => false

/-- C3 counterexample: when the entry signal fires on the final bar, the
forced close exits on that same bar, so the run's ledger contains a trade
with entryTimestamp equal to exitTimestamp - the claimed strict
inequality fails. -/
theorem entry_exit_strict_cex :
    (run_backtest engEx smaStrategyEx smaData2).2 = RunResult.ok smaResult2 ∧
    hasNonStrictTrade (run_backtest engEx smaStrategyEx smaData2).2 = true :=
  ⟨by decide, by decide⟩

/-- C3 (amended): on series with strictly increasing timestamps, every
recorded trade satisfies entryTimestamp less-or-equal exitTimestamp, and
every trade except possibly the last one - the forced close of a
position entered on the final bar - satisfies the strict inequality. -/
theorem entry_exit_le (e : BacktestEngine) (strategy : Strategy)
    (data : MarketData) (r : BacktestResult)
    (hsma : List.Pairwise (fun a b => a.ts < b.ts) data.smaBars)
    (hrsi : List.Pairwise (fun a b => a.ts < b.ts) data.rsiBars)
    (hmacd : List.Pairwise (fun a b => a.ts < b.ts) data.macdBars)
    (h : (run_backtest e strategy data).2 = RunResult.ok r) :
    (∀ t ∈ r.trades, t.entry_date ≤ t.exit_date) ∧
    (∀ t ∈ r.trades.dropLast, t.entry_date < t.exit_date) := by
  simp only [run_backtest] at h
  split_ifs at h with h1 h2 h3
  · rw [RunResult.ok.injEq] at h
    subst h
    simp only [backtest_sma_crossover]
    rw [calculate_metrics_trades]
    exact ⟨(runStrategyLoop_post SmaBar.close SmaBar.ts smaBuySignal smaSellSignal
        _ _ _ (pairwise_dropnaSma _ hsma)).2.1,
      (runStrategyLoop_post SmaBar.close SmaBar.ts smaBuySignal smaSellSignal
        _ _ _ (pairwise_dropnaSma _ hsma)).2.2⟩
  · rw [RunResult.ok.injEq] at h
    subst h
    simp only [backtest_rsi]
    rw [calculate_metrics_trades]
    exact ⟨(runStrategyLoop_post RsiBar.close RsiBar.ts _ _ _ _ _
        (pairwise_dropnaRsi _ hrsi)).2.1,
      (runStrategyLoop_post RsiBar.close RsiBar.ts _ _ _ _ _
        (pairwise_dropnaRsi _ hrsi)).2.2⟩
  · rw [RunResult.ok.injEq] at h
    subst h
    simp only [backtest_macd]
    rw [calculate_metrics_trades]
    exact ⟨(runStrategyLoop_post MacdBar.close MacdBar.ts macdBuySignal macdSellSignal
        _ _ _ (pairwise_dropnaMacd _ hmacd)).2.1,
      (runStrategyLoop_post MacdBar.close MacdBar.ts macdBuySignal macdSellSignal
        _ _ _ (pairwise_dropnaMacd _ hmacd)).2.2⟩

/-- C3 witness: the last-bar-entry scenario satisfies the amended claim -
its only trade is degenerate, and it is the last trade. -/
theorem entry_exit_le_witness :
    List.Pairwise (fun a b => a.ts < b.ts) smaData2.smaBars ∧
    List.Pairwise (fun a b => a.ts < b.ts) smaData2.rsiBars ∧
    List.Pairwise (fun a b => a.ts < b.ts) smaData2.macdBars ∧
    (run_backtest engEx smaStrategyEx smaData2).2 = RunResult.ok smaResult2 ∧
    ((∀ t ∈ smaResult2.trades, t.entry_date ≤ t.exit_date) ∧
     (∀ t ∈ smaResult2.trades.dropLast, t.entry_date < t.exit_date)) :=
  ⟨by decide, by decide, by decide, by decide,
   entry_exit_le engEx smaStrategyEx smaData2 smaResult2
     (by decide) (by decide) (by decide) (by decide)⟩

/-- C10: for any signal pair (so for every strategy's loop body), started
flat with an empty ledger on strictly increasing timestamps, every trade
the bar loop itself records exits strictly after its entry bar - the
entry and exit branches are mutually exclusive per bar, and only the
after-loop forced close can ever close a position on its entry bar. -/
theorem loop_exit_after_entry (β : Type) (closeOf : β → ℚ) (tsOf : β → ℤ)
    (buy sell : β → β → Bool) (frac : ℚ) (cap : ℚ) (b0 : β) (rest : List β)
    (hord : List.Pairwise (fun a b => tsOf a < tsOf b) (b0 :: rest)) :
    ∀ t ∈ (runLoop closeOf tsOf buy sell frac b0 rest
        { capital := cap, position := none, trades := [] }).trades,
      t.entry_date < t.exit_date := by
  have h0 : InvOrd (tsOf b0) { capital := cap, position := none, trades := [] } := by
    refine ⟨List.chain'_nil, by simp, by simp, ?_⟩
    intro p hp
    exact absurd hp (by simp)
  exact (runLoop_invOrd closeOf tsOf buy sell frac rest b0 _ hord h0).2.1

/-- C10 witness: the five-bar SMA loop records one trade, entered at bar
1 and exited at bar 3. -/
theorem loop_exit_after_entry_witness :
    List.Pairwise (fun a b => SmaBar.ts a < SmaBar.ts b)
      [⟨0, 100, 9, 10⟩, ⟨1, 102, 11, 10⟩, ⟨2, 105, 12, 10⟩,
       ⟨3, 101, 8, 10⟩, ⟨4, 99, 7, 10⟩] ∧
    ∀ t ∈ (runLoop SmaBar.close SmaBar.ts smaBuySignal smaSellSignal (1/10)
        ⟨0, 100, 9, 10⟩
        [⟨1, 102, 11, 10⟩, ⟨2, 105, 12, 10⟩, ⟨3, 101, 8, 10⟩, ⟨4, 99, 7, 10⟩]
        { capital := 1000000, position := none, trades := [] }).trades,
      t.entry_date < t.exit_date :=
  ⟨by decide,
   loop_exit_after_entry SmaBar SmaBar.close SmaBar.ts smaBuySignal smaSellSignal
     (1/10) 1000000 ⟨0, 100, 9, 10⟩
     [⟨1, 102, 11, 10⟩, ⟨2, 105, 12, 10⟩, ⟨3, 101, 8, 10⟩, ⟨4, 99, 7, 10⟩]
     (by decide)⟩

/-- The run result depends only on the engine's initial capital: the
reset at the top of `run_backtest` discards the capital and ledger left
by any earlier run. -/
theorem run_backtest_initial_only (i c1 c2 : ℚ) (t1 t2 : List Trade)
    (strategy : Strategy) (data : MarketData) :
    run_backtest ⟨i, c1, t1⟩ strategy data =
      run_backtest ⟨i, c2, t2⟩ strategy data := rfl

/-- The engine returned by a run keeps its initial capital unchanged. -/
theorem run_fst_initial (e : BacktestEngine) (strategy : Strategy)
    (data : MarketData) :
    (run_backtest e strategy data).1.initial_capital = e.initial_capital := by
  simp only [run_backtest]
  split_ifs <;> rfl

/-- C8: runs are deterministic and independent - engines agreeing on
initialCapital produce identical results on identical (config, series)
inputs, and re-running the engine a first run returned reproduces the
same result, because capital, position and ledger are reset on entry. -/
theorem run_backtest_deterministic (e1 e2 : BacktestEngine)
    (strategy : Strategy) (data : MarketData)
    (h : e1.initial_capital = e2.initial_capital) :
    (run_backtest e1 strategy data).2 = (run_backtest e2 strategy data).2 ∧
    (run_backtest (run_backtest e1 strategy data).1 strategy data).2 =
      (run_backtest e1 strategy data).2 := by
  constructor
  · rcases e1 with ⟨i1, c1, t1⟩
    rcases e2 with ⟨i2, c2, t2⟩
    simp only at h
    subst h
    rw [run_backtest_initial_only i1 c1 c2 t1 t2 strategy data]
  · have hE := run_fst_initial e1 strategy data
    rcases e1 with ⟨i1, c1, t1⟩
    simp only at hE
    rcases hfst : (run_backtest ⟨i1, c1, t1⟩ strategy data).1 with ⟨i', c', t'⟩
    rw [hfst] at hE
    simp only at hE
    subst hE
    rw [run_backtest_initial_only i' c' c1 t' t1 strategy data]

/-- An engine carrying stale capital and ledger from a previous run. -/
def engDirty : BacktestEngine := ⟨1000000, 999020, [smaTrade5]⟩

/-- C8 witness: a fresh engine and a dirty engine with the same initial
capital agree on the five-bar scenario, and an immediate re-run
reproduces the result. -/
theorem run_backtest_deterministic_witness :
    engEx.initial_capital = engDirty.initial_capital ∧
    ((run_backtest engEx smaStrategyEx smaData5).2 =
       (run_backtest engDirty smaStrategyEx smaData5).2 ∧
     (run_backtest (run_backtest engEx smaStrategyEx smaData5).1
         smaStrategyEx smaData5).2 =
       (run_backtest engEx smaStrategyEx smaData5).2) :=
  ⟨by decide,
   run_backtest_deterministic engEx engDirty smaStrategyEx smaData5 (by decide)⟩

/-- A frame with no rows at all, as an empty fetch would produce. -/
def emptyData : MarketData := ⟨[], [], []⟩

/-- C2 counterexample: a non-empty series that is empty after dropping
warm-up bars is not surfaced as an error - the engine returns the
zero-trade result with finalCapital equal to initialCapital. -/
theorem trimmed_empty_not_error_cex :
    smaNanData.smaBars ≠ [] ∧
    dropnaSma smaNanData.smaBars = [] ∧
    (run_backtest engEx smaStrategyEx smaNanData).2 =
      RunResult.ok (zeroTradeResult 1000000) :=
  ⟨by decide, by decide, by decide⟩

/-- C2 (amended): the backtest route rejects an empty fetched frame with
an HTTP 400 error before the engine runs, but the engine itself returns
the zero-trade BacktestResult - not an error - whenever the selected
strategy's series is empty after dropping warm-up bars. -/
theorem empty_series_behavior (strategy : Strategy) (hist : MarketData)
    (e : BacktestEngine) :
    (hist.isEmpty = true → backtest_route strategy hist =
      RouteResponse.httpError 400 "No historical data available") ∧
    (strategy.type?.getD "sma_crossover" = "sma_crossover" →
      dropnaSma hist.smaBars = [] →
      (run_backtest e strategy hist).2 =
        RunResult.ok (zeroTradeResult e.initial_capital)) ∧
    (strategy.type?.getD "sma_crossover" = "rsi" →
      dropnaRsi hist.rsiBars = [] →
      (run_backtest e strategy hist).2 =
        RunResult.ok (zeroTradeResult e.initial_capital)) ∧
    (strategy.type?.getD "sma_crossover" = "macd" →
      dropnaMacd hist.macdBars = [] →
      (run_backtest e strategy hist).2 =
        RunResult.ok (zeroTradeResult e.initial_capital)) := by
  refine ⟨?_, ?_, ?_, ?_⟩
  · intro h
    simp [backtest_route, h]
  · intro hty hempty
    simp only [run_backtest, backtest_sma_crossover, hty, hempty, if_true]
    rfl
  · intro hty hempty
    simp only [run_backtest, backtest_rsi, hty, hempty]
    rfl
  · intro hty hempty
    simp only [run_backtest, backtest_macd, hty, hempty]
    rfl

/-- C2 witness: the route errors on the empty frame, and the engine
returns the zero-trade result on the all-NaN two-bar frame. -/
theorem empty_series_behavior_witness :
    emptyData.isEmpty = true ∧
    backtest_route smaStrategyEx emptyData =
      RouteResponse.httpError 400 "No historical data available" ∧
    smaStrategyEx.type?.getD "sma_crossover" = "sma_crossover" ∧
    dropnaSma smaNanData.smaBars = [] ∧
    (run_backtest engEx smaStrategyEx smaNanData).2 =
      RunResult.ok (zeroTradeResult engEx.initial_capital) :=
  ⟨by decide,
   (empty_series_behavior smaStrategyEx emptyData engEx).1 (by decide),
   by decide, by decide,
   (empty_series_behavior smaStrategyEx smaNanData engEx).2.1
     (by decide) (by decide)⟩

/-- C9 counterexample: a configuration with no type field is not
rejected: run_backtest silently substitutes the sma_crossover default,
iterates the bars and records a trade. -/
theorem missing_type_still_runs_cex :
    strategyNoType.type? = none ∧
    (run_backtest engEx strategyNoType smaData5).2 = RunResult.ok smaResult5 :=
  ⟨rfl, by decide⟩

/-- C9 (amended): only the separate validate_strategy endpoint rejects a
configuration missing a required field; run_backtest performs no such
validation - with the type field absent it behaves exactly as with the
sma_crossover default, executing the backtest. -/
theorem validation_spec (s : Strategy) :
    ((s.name? = none ∨ s.type? = none ∨ s.symbol? = none ∨
      s.positionSize? = none ∨ s.initialCapital? = none) →
      validate_strategy s ≠ ValidateResult.valid) ∧
    (∀ (e : BacktestEngine) (d : MarketData), s.type? = none →
      run_backtest e s d =
        run_backtest e { s with type? := some "sma_crossover" } d) := by
  constructor
  · intro hmiss hvalid
    unfold validate_strategy at hvalid
    split_ifs at hvalid
    simp_all [Option.isNone_iff_eq_none]
  · intro e d hty
    rcases s with ⟨n, ty, sym, ps, ic, sp, lp, rp, os, ob⟩
    simp only at hty
    subst hty
    rfl

/-- C9 witness: the no-type configuration is rejected by validation yet
runs as sma_crossover through run_backtest. -/
theorem validation_spec_witness :
    (strategyNoType.name? = none ∨ strategyNoType.type? = none ∨
     strategyNoType.symbol? = none ∨ strategyNoType.positionSize? = none ∨
     strategyNoType.initialCapital? = none) ∧
    validate_strategy strategyNoType ≠ ValidateResult.valid ∧
    strategyNoType.type? = none ∧
    run_backtest engEx strategyNoType smaData5 =
      run_backtest engEx { strategyNoType with type? := some "sma_crossover" }
        smaData5 :=
  ⟨Or.inl rfl, (validation_spec strategyNoType).1 (Or.inl rfl), rfl,
   (validation_spec strategyNoType).2 engEx smaData5 rfl⟩
